import Mathlib

/-!
Verification of the `multi_party_agent` repository.

The repository is a Streamlit chat application (`src/app.py`) around a
tool-calling agent (`src/PromptBasedAgent.py`) with Google Drive helpers
(`src/gdrive_utils.py`).  Strings are embedded as `List Char`; Python's
`str.strip`, `str.lower`, substring `in`, and `str.join` are embedded as
explicit functions below.  External collaborators (the FAISS similarity
search, the Google Drive server, the language model) are modelled from the
spec where a claim needs them; each such definition carries a doc comment
starting with `Modelled from the spec:`.
-/

/-- Whitespace characters removed by Python's `str.strip()` (ASCII subset). -/
def pySpace (c : Char) : Bool :=
  c == ' ' || c == '\t' || c == '\n' || c == '\r' || c == '\x0b' || c == '\x0c'

/-- Embedding of Python `s.strip()`: drop whitespace from both ends. -/
def pyStrip (s : List Char) : List Char :=
  ((s.dropWhile pySpace).reverse.dropWhile pySpace).reverse

/-- Embedding of Python `s.lower()` (ASCII case folding). -/
def pyLower (s : List Char) : List Char := s.map Char.toLower

/-- Strip a literal head `p` off `s`, returning the remainder when `p` is a
prefix of `s`. -/
def stripHead : List Char → List Char → Option (List Char)
  | [], s => some s
  | _ :: _, [] => none
  | p :: ps, c :: cs => if c = p then stripHead ps cs else none

/-- Strip a literal tail `t` off `s`, returning the front when `t` is a
suffix of `s`. -/
def stripTail (t s : List Char) : Option (List Char) :=
  (stripHead t.reverse s.reverse).map List.reverse

/-- Boolean test that `p` is a literal prefix of `s`. -/
def hasHead (p s : List Char) : Bool := (stripHead p s).isSome

/-- Embedding of Python's substring operator `t in s`. -/
def isSubstr (t : List Char) : List Char → Bool
  | [] => t.isEmpty
  | c :: cs => hasHead t (c :: cs) || isSubstr t cs

/-- Embedding of Python `sep.join(parts)`. -/
def joinSep (sep : List Char) : List (List Char) → List Char
  | [] => []
  | [x] => x
  | x :: y :: ys => x ++ sep ++ joinSep sep (y :: ys)

/-! The sentinel-tag pattern.  `src/app.py` line 60 defines
`_IMAGE_TAG = re.compile(r"\[RECIPE_IMAGE:([^\]]+)\]")`. -/

/-- The literal opening of a sentinel tag. -/
def tagOpen : List Char := "[RECIPE_IMAGE:".toList

/-- Match the regex `\[RECIPE_IMAGE:([^\]]+)\]` at the head of `s`: after the
literal opening, a non-empty maximal run of characters other than `]`
(greedy `[^\]]+`), then a literal `]`.  Returns the captured id and the
remainder of the string. -/
def matchTag (s : List Char) : Option (List Char × List Char) :=
  match stripHead tagOpen s with
  | none => none
  | some r =>
    match r.dropWhile (fun c => c != ']') with
    | ']' :: tail =>
      if (r.takeWhile (fun c => c != ']')).isEmpty then none
      else some (r.takeWhile (fun c => c != ']'), tail)
    | _ => none

/-- Fueled worker for the `re.split` embedding: scan left to right; at each
position either consume a full tag match (emitting an empty current segment,
then the captured id) or move one character into the current text segment.
The fuel only needs to dominate the string length. -/
def splitFlatF : Nat → List Char → List (List Char)
  | 0, s => [s]
  | fuel + 1, s =>
    match matchTag s with
    | some (id, rest) => [] :: id :: splitFlatF fuel rest
    | none =>
      match s with
      | [] => [[]]
      | c :: cs =>
        match splitFlatF fuel cs with
        | [] => [[c]]
        | t :: ts => (c :: t) :: ts

/-- Embedding of `_IMAGE_TAG.split(response)` (`src/app.py` line 69): the
resulting list alternates plain-text segments (even positions) and captured
ids (odd positions), starting and ending with a text segment. -/
def splitFlat (s : List Char) : List (List Char) := splitFlatF s.length s

/-- Re-wrap an alternating text/id list back into a single string, the ids
re-wrapped as `[RECIPE_IMAGE:<id>]`. -/
def rejoin : List (List Char) → List Char
  | [] => []
  | [t] => t
  | t :: id :: rest => t ++ tagOpen ++ id ++ ']' :: rejoin rest

/-! The Image-Fetch Tool.  `src/PromptBasedAgent.py` lines 122-132:
`get_recipe_image(file_id)` returns `"No file_id provided."` when
`file_id.strip()` is falsy, and `f"[RECIPE_IMAGE:{file_id.strip()}]"`
otherwise.  No network access occurs: the body is a pure string
computation. -/

/-- Fixed message returned for a blank `file_id`. -/
def msgNoFileId : List Char := "No file_id provided.".toList

/-- Embedding of `get_recipe_image` from `src/PromptBasedAgent.py`. -/
def get_recipe_image (file_id : List Char) : List Char :=
  if (pyStrip file_id).isEmpty then msgNoFileId
  else tagOpen ++ pyStrip file_id ++ [']']

/-- Extract the id portion of a sentinel-tag string: the characters strictly
between the literal opening `[RECIPE_IMAGE:` and the closing (final) `]`. -/
def sentinelId (s : List Char) : Option (List Char) :=
  match stripHead tagOpen s with
  | none => none
  | some r => stripTail [']'] r

/-! The retrieval pipeline.  `src/PromptBasedAgent.py` lines 40-92: the
Document Loader produces documents with a `source` metadata entry, the
index is built once at startup (`_build_index`, returning `None` when no
documents were loaded), and `search_documents` formats the top-4 passages
returned by the FAISS retriever. -/

/-- A loaded document or chunk: text content plus a metadata mapping,
embedded as an association list. -/
structure Doc where
  page_content : List Char
  metadata : List (List Char × List Char)
deriving DecidableEq

/-- Embedding of Python `dict.get(key)` on the metadata mapping. -/
def metaGet (k : List Char) : List (List Char × List Char) → Option (List Char)
  | [] => none
  | (k', v) :: rest => if k' = k then some v else metaGet k rest

/-- The `source` metadata key. -/
def srcKey : List Char := "source".toList

/-- Fixed message when the retriever is absent (`src/PromptBasedAgent.py`
line 81). -/
def msgNoKB : List Char := "No documents are available in the knowledge base.".toList

/-- Fixed message when retrieval returns zero results (line 85). -/
def msgNoPassages : List Char := "No relevant passages found.".toList

/-- One formatted passage: `f"[{i}] (source: {source})\n{doc.page_content.strip()}"`
with the source defaulting to `"unknown"` (lines 88-89). -/
def fmtPassage (i : Nat) (d : Doc) : List Char :=
  '[' :: (Nat.toDigits 10 i ++ ("] (source: ".toList ++
    ((metaGet srcKey d.metadata).getD "unknown".toList ++
      (")\n".toList ++ pyStrip d.page_content))))

/-- Embedding of `_build_index` (`src/PromptBasedAgent.py` lines 58-68): if
the Document Loader yielded zero documents, index construction is skipped
and the index is absent (`None`); otherwise the documents are chunked and
indexed.  The chunker `chunk` stands for the external
`RecursiveCharacterTextSplitter`; what the index stores is its chunk list. -/
def build_index (docs : List Doc) (chunk : List Doc → List Doc) : Option (List Doc) :=
  if docs.isEmpty then none else some (chunk docs)

/-- Embedding of `search_documents` (`src/PromptBasedAgent.py` lines 77-92).
Modelled from the spec: the external FAISS retriever with
`search_kwargs={"k": 4}` returns the 4 chunks nearest to the query, i.e.
the first 4 elements of the full chunk list ordered by similarity to the
query; `rank` stands for that query-dependent similarity ordering, so
`(rank chunks).take 4` is `_retriever.invoke(query)`. -/
def search_documents (index : Option (List Doc)) (rank : List Doc → List Doc) :
    List Char :=
  match index with
  | none => msgNoKB
  | some chunks =>
    if ((rank chunks).take 4).isEmpty then msgNoPassages
    else joinSep "\n\n".toList
      (((rank chunks).take 4).enum.map (fun p => fmtPassage (p.1 + 1) p.2))

/-- Sample chunk used by concrete witnesses. -/
def docSample : Doc := ⟨"hello world".toList, [(srcKey, "notes.txt".toList)]⟩

/-- Chunk with no `source` metadata, used by the C10 witness. -/
def docNoSource : Doc := ⟨" spaced text ".toList, []⟩

/-! The Drive Client.  `src/gdrive_utils.py` lines 30-43: `list_image_files`
builds the query string
`'{folder_id}' in parents and trashed = false and mimeType contains 'image/'`
and issues a single `files.list` call with `pageSize=200` (no pagination
beyond the first page).  The server-side evaluation of the query is
modelled from the spec (§4.5). -/

/-- A Drive file as the server sees it: descriptor fields plus the trashed
flag and parent folder ids that the listing query constrains. -/
structure DriveFile where
  id : List Char
  name : List Char
  mimeType : List Char
  trashed : Bool
  parents : List (List Char)
deriving DecidableEq

/-- The clause separator of the Drive query language, ` and `. -/
def sepAnd : List Char := " and ".toList

/-- Fueled splitter of a query string into its ` and `-separated clauses. -/
def splitAndF : Nat → List Char → List (List Char)
  | 0, s => [s]
  | fuel + 1, s =>
    match stripHead sepAnd s with
    | some rest => [] :: splitAndF fuel rest
    | none =>
      match s with
      | [] => [[]]
      | c :: cs =>
        match splitAndF fuel cs with
        | [] => [[c]]
        | t :: ts => (c :: t) :: ts

/-- Modelled from the spec: split a Drive query string into its top-level
` and `-separated clauses. -/
def splitAnd (s : List Char) : List (List Char) := splitAndF s.length s

/-- Modelled from the spec: evaluation of one Drive query clause against a
file.  The three clause forms used by `list_image_files` are interpreted:
`'<id>' in parents` (the folder id is a parent), `trashed = false` (the
file is not trashed), and `mimeType contains '<pat>'` (per §4.5 the MIME
type begins with the pattern). -/
def evalClause (c : List Char) (f : DriveFile) : Bool :=
  match stripHead ['\''] c with
  | some r =>
    match stripTail "' in parents".toList r with
    | some pid => f.parents.contains pid
    | none => false
  | none =>
    if c = "trashed = false".toList then !f.trashed
    else
      match stripHead "mimeType contains '".toList c with
      | some r =>
        match stripTail ['\''] r with
        | some pat => hasHead pat f.mimeType
        | none => false
      | none => false

/-- Modelled from the spec: a conjunctive Drive query holds when every
` and `-separated clause holds. -/
def evalQuery (q : List Char) (f : DriveFile) : Bool :=
  (splitAnd q).all (fun c => evalClause c f)

/-- Modelled from the spec: the Drive `files.list` endpoint returns the
files matching the query, first page only, capped at `pageSize` entries
(no pagination beyond the first page). -/
def driveList (drive : List DriveFile) (q : List Char) (pageSize : Nat) :
    List DriveFile :=
  (drive.filter (fun f => evalQuery q f)).take pageSize

/-- The query string built by `list_image_files` (`src/gdrive_utils.py`
lines 33-37). -/
def driveQuery (folder_id : List Char) : List Char :=
  ('\'' :: folder_id) ++
    "' in parents and trashed = false and mimeType contains 'image/'".toList

/-- Embedding of `list_image_files` (`src/gdrive_utils.py` lines 30-43):
one listing call with the constructed query and `pageSize=200`. -/
def list_image_files (drive : List DriveFile) (folder_id : List Char) :
    List DriveFile :=
  driveList drive (driveQuery folder_id) 200

/-- Concrete Drive folder contents used by witnesses: one matching image,
one non-image, one trashed image, one image in another folder. -/
def driveSample : List DriveFile :=
  [⟨"id1".toList, "pasta.png".toList, "image/png".toList, false, ["fold1".toList]⟩,
   ⟨"id2".toList, "doc.pdf".toList, "application/pdf".toList, false, ["fold1".toList]⟩,
   ⟨"id3".toList, "salad.jpg".toList, "image/jpeg".toList, true, ["fold1".toList]⟩,
   ⟨"id4".toList, "cake.png".toList, "image/png".toList, false, ["other".toList]⟩]

/-! The Image-List Tool.  `src/PromptBasedAgent.py` lines 95-119:
`list_drive_recipes(search)` handles the unconfigured-folder case, Drive
errors, the empty folder, an unmatched search term, and the formatted
listing.  The Drive call's outcome is passed in as an `Except` value. -/

/-- Fixed message when `GDRIVE_FOLDER_ID` is not configured (line 103). -/
def msgDriveNotConfigured : List Char :=
  "Google Drive folder is not configured (GDRIVE_FOLDER_ID missing).".toList

/-- Fixed message when the folder holds no images (line 110). -/
def msgNoRecipeImages : List Char :=
  "No recipe images found in the Google Drive folder.".toList

/-- Case-insensitive filename match: `term in f["name"].lower()` with
`term = search.lower()` (lines 113-114). -/
def nameMatches (search : List Char) (f : DriveFile) : Bool :=
  isSubstr (pyLower search) (pyLower f.name)

/-- The file list after the optional search filter: Python only filters
when `search` is truthy (non-empty). -/
def keptFiles (search : List Char) (files : List DriveFile) : List DriveFile :=
  if search.isEmpty then files else files.filter (nameMatches search)

/-- One bulleted line `- {name}  (id: {id})` (line 118). -/
def recipeLine (f : DriveFile) : List Char :=
  "- ".toList ++ f.name ++ "  (id: ".toList ++ f.id ++ [')']

/-- Embedding of `list_drive_recipes` (`src/PromptBasedAgent.py` lines
95-119).  `folder_id` is the `GDRIVE_FOLDER_ID` value, `driveResult` the
outcome of the `gdrive_utils.list_image_files` call (an exception is the
`error` case, carrying the exception's message). -/
def list_drive_recipes (folder_id : List Char)
    (driveResult : Except (List Char) (List DriveFile))
    (search : List Char) : List Char :=
  if folder_id.isEmpty then msgDriveNotConfigured
  else
    match driveResult with
    | .error e => "Error accessing Google Drive: ".toList ++ e
    | .ok files =>
      if files.isEmpty then msgNoRecipeImages
      else
        if search.isEmpty = false ∧ (keptFiles search files).isEmpty = true then
          "No recipe images matched '".toList ++ search ++ "'.".toList
        else
          "Available recipe images:\n".toList ++
            joinSep ['\n'] ((keptFiles search files).map recipeLine)

/-! The response renderer.  `src/app.py` lines 62-81: `render_response`
splits the assistant response on the tag pattern and walks the parts in
order, emitting a markdown block for each non-blank text segment and, for
each captured id, either an inline image (on successful fetch) or a
warning naming the id and the error.  The visible output is embedded as a
list of render events; `_fetch_drive_image` is passed in as a function
returning either bytes or the raised exception's message. -/

deriving instance DecidableEq for Except

/-- One visible rendering action of the UI. -/
inductive RenderItem where
  | md : List Char → RenderItem
  | image : List Nat → RenderItem
  | warn : List Char → RenderItem
deriving DecidableEq

/-- The warning text `f"⚠️ Could not load recipe image ({file_id}): {e}"`
(`src/app.py` line 81). -/
def warnText (fid e : List Char) : List Char :=
  "⚠️ Could not load recipe image (".toList ++ fid ++ "): ".toList ++ e

/-- Rendering of one indexed part of the split response: even positions are
plain text (skipped when blank after stripping), odd positions are captured
file ids, fetched and rendered as an image or a warning. -/
def renderPart (fetch : List Char → Except (List Char) (List Nat))
    (p : Nat × List Char) : List RenderItem :=
  if p.1 % 2 = 0 then
    if (pyStrip p.2).isEmpty then [] else [RenderItem.md (pyStrip p.2)]
  else
    match fetch (pyStrip p.2) with
    | .ok b => [RenderItem.image b]
    | .error e => [RenderItem.warn (warnText (pyStrip p.2) e)]

/-- Embedding of `render_response` (`src/app.py` lines 67-81): the ordered
render events produced for a response. -/
def render_response (fetch : List Char → Except (List Char) (List Nat))
    (response : List Char) : List RenderItem :=
  ((splitFlat response).enum.map (renderPart fetch)).flatten

/-- Drive fetcher used by the C9 witness: one known id succeeds, every
other id raises. -/
def fetchSample : List Char → Except (List Char) (List Nat) :=
  fun fid => if fid = "ok1".toList then .ok [1, 2] else .error "boom".toList

/-- Response used by the C9 witness: text, a failing image id, more text,
a fetchable image id, final text. -/
def respSample : List Char :=
  "Hello [RECIPE_IMAGE:bad] mid [RECIPE_IMAGE:ok1] end".toList

/-! Thread-identifier derivation.  `src/app.py` lines 32-33:
`make_thread_id(seed) = str(uuid.uuid5(uuid.NAMESPACE_DNS, seed))`.
`uuid5` is the RFC 4122 name-based UUID: the SHA-1 hash of the namespace
bytes followed by the UTF-8 encoded name, with the version nibble forced
to 5 and the variant bits to 10, printed as lowercase hex in the
8-4-4-4-12 layout.  SHA-1 is embedded below over byte lists (`Nat` values
below 256), with 32-bit words as `Nat` reduced modulo `2^32`. -/

/-- Reduction modulo `2^32`. -/
def M32 (n : Nat) : Nat := n % 4294967296

/-- Left rotation of a 32-bit word by `k` bits. -/
def rotl (k w : Nat) : Nat := M32 ((w <<< k) ||| (w >>> (32 - k)))

/-- The SHA-1 round function for round `t`. -/
def sha1F (t b c d : Nat) : Nat :=
  if t < 20 then (b &&& c) ||| ((b ^^^ 0xFFFFFFFF) &&& d)
  else if t < 40 then b ^^^ c ^^^ d
  else if t < 60 then (b &&& c) ||| (b &&& d) ||| (c &&& d)
  else b ^^^ c ^^^ d

/-- The SHA-1 round constant for round `t`. -/
def sha1K (t : Nat) : Nat :=
  if t < 20 then 0x5A827999
  else if t < 40 then 0x6ED9EBA1
  else if t < 60 then 0x8F1BBCDC
  else 0xCA62C1D6

/-- Pack big-endian byte quadruples into 32-bit words. -/
def bytesToWords : List Nat → List Nat
  | b0 :: b1 :: b2 :: b3 :: rest =>
    M32 (b0 * 16777216 + b1 * 65536 + b2 * 256 + b3) :: bytesToWords rest
  | _ => []

/-- Extend the 16-word message schedule (kept in reverse) by `n` words. -/
def schedExt : List Nat → Nat → List Nat
  | rev, 0 => rev
  | rev, n + 1 =>
    schedExt ((rotl 1 ((rev.getD 2 0) ^^^ (rev.getD 7 0) ^^^
      (rev.getD 13 0) ^^^ (rev.getD 15 0))) :: rev) n

/-- The full 80-word SHA-1 message schedule of one block. -/
def sha1Sched (w16 : List Nat) : List Nat := (schedExt w16.reverse 64).reverse

/-- One SHA-1 round on the five-word state. -/
def sha1Round (s : Nat × Nat × Nat × Nat × Nat) (tw : Nat × Nat) :
    Nat × Nat × Nat × Nat × Nat :=
  match s, tw with
  | (a, b, c, d, e), (t, w) =>
    (M32 (rotl 5 a + sha1F t b c d + e + sha1K t + w), a, rotl 30 b, c, d)

/-- The SHA-1 compression function on one 64-byte block. -/
def sha1Block (h : Nat × Nat × Nat × Nat × Nat) (block : List Nat) :
    Nat × Nat × Nat × Nat × Nat :=
  match h, (sha1Sched (bytesToWords block)).enum.foldl sha1Round h with
  | (h0, h1, h2, h3, h4), (a, b, c, d, e) =>
    (M32 (h0 + a), M32 (h1 + b), M32 (h2 + c), M32 (h3 + d), M32 (h4 + e))

/-- Fueled split of a byte list into 64-byte blocks. -/
def blocksF : Nat → List Nat → List (List Nat)
  | 0, _ => []
  | fuel + 1, l => if l.isEmpty then [] else l.take 64 :: blocksF fuel (l.drop 64)

/-- Split a byte list into 64-byte blocks. -/
def toBlocks (l : List Nat) : List (List Nat) := blocksF l.length l

/-- Big-endian 8-byte encoding of a 64-bit value. -/
def be64 (n : Nat) : List Nat :=
  [(n >>> 56) % 256, (n >>> 48) % 256, (n >>> 40) % 256, (n >>> 32) % 256,
   (n >>> 24) % 256, (n >>> 16) % 256, (n >>> 8) % 256, n % 256]

/-- SHA-1 padding: a `0x80` byte, zeros to 56 mod 64, then the bit length. -/
def sha1Pad (msg : List Nat) : List Nat :=
  msg ++ 0x80 :: List.replicate ((119 - msg.length % 64) % 64) 0 ++
    be64 (msg.length * 8)

/-- Big-endian bytes of one 32-bit word. -/
def wordBytes (w : Nat) : List Nat :=
  [(w >>> 24) % 256, (w >>> 16) % 256, (w >>> 8) % 256, w % 256]

/-- The SHA-1 digest (20 bytes) of a byte list. -/
def sha1 (msg : List Nat) : List Nat :=
  match (toBlocks (sha1Pad msg)).foldl sha1Block
      (0x67452301, 0xEFCDAB89, 0x98BADCFE, 0x10325476, 0xC3D2E1F0) with
  | (a, b, c, d, e) =>
    wordBytes a ++ wordBytes b ++ wordBytes c ++ wordBytes d ++ wordBytes e

/-- Lowercase hexadecimal digit for a value below 16. -/
def hexDigit (n : Nat) : Char :=
  if n < 10 then Char.ofNat (48 + n) else Char.ofNat (87 + n)

/-- Two lowercase hex digits of one byte. -/
def hexByte (b : Nat) : List Char := [hexDigit (b / 16 % 16), hexDigit (b % 16)]

/-- The canonical 8-4-4-4-12 textual UUID layout over 16 octets. -/
def uuidStr (b0 b1 b2 b3 b4 b5 b6 b7 b8 b9 b10 b11 b12 b13 b14 b15 : Nat) :
    List Char :=
  hexByte b0 ++ hexByte b1 ++ hexByte b2 ++ hexByte b3 ++
    '-' :: (hexByte b4 ++ hexByte b5 ++
    '-' :: (hexByte b6 ++ hexByte b7 ++
    '-' :: (hexByte b8 ++ hexByte b9 ++
    '-' :: (hexByte b10 ++ hexByte b11 ++ hexByte b12 ++ hexByte b13 ++
      hexByte b14 ++ hexByte b15))))

/-- The bytes of `uuid.NAMESPACE_DNS`
(`6ba7b810-9dad-11d1-80b4-00c04fd430c8`). -/
def NS_DNS : List Nat :=
  [0x6b, 0xa7, 0xb8, 0x10, 0x9d, 0xad, 0x11, 0xd1,
   0x80, 0xb4, 0x00, 0xc0, 0x4f, 0xd4, 0x30, 0xc8]

/-- RFC 4122 name-based SHA-1 UUID (`uuid.uuid5`) rendered as in
`str(uuid.UUID(...))`: hash namespace plus name, keep 16 octets, force the
version nibble to 5 and the variant bits to 10, print lowercase hex. -/
def uuid5 (ns nm : List Nat) : List Char :=
  match sha1 (ns ++ nm) with
  | b0 :: b1 :: b2 :: b3 :: b4 :: b5 :: b6 :: b7 :: b8 :: b9 :: b10 :: b11 ::
      b12 :: b13 :: b14 :: b15 :: _ =>
    uuidStr b0 b1 b2 b3 b4 b5 (b6 % 16 + 0x50) b7 (b8 % 64 + 0x80) b9 b10 b11
      b12 b13 b14 b15
  | _ => []

/-- UTF-8 encoding of one character. -/
def utf8Char (c : Char) : List Nat :=
  let n := c.toNat
  if n < 0x80 then [n]
  else if n < 0x800 then
    [0xC0 ||| (n >>> 6), 0x80 ||| (n &&& 0x3F)]
  else if n < 0x10000 then
    [0xE0 ||| (n >>> 12), 0x80 ||| ((n >>> 6) &&& 0x3F), 0x80 ||| (n &&& 0x3F)]
  else
    [0xF0 ||| (n >>> 18), 0x80 ||| ((n >>> 12) &&& 0x3F),
     0x80 ||| ((n >>> 6) &&& 0x3F), 0x80 ||| (n &&& 0x3F)]

/-- Embedding of `make_thread_id` (`src/app.py` lines 32-33). -/
def make_thread_id (seed : List Char) : List Char :=
  uuid5 NS_DNS ((seed.map utf8Char).flatten)

/-! Theorems about the embedded program. -/

theorem stripHead_eq_some {p : List Char} :
    ∀ {s r : List Char}, stripHead p s = some r → s = p ++ r := by
  induction p with
  | nil =>
    intro s r h
    simp [stripHead] at h
    simp [h]
  | cons a as ih =>
    intro s r h
    cases s with
    | nil => simp [stripHead] at h
    | cons c cs =>
      simp only [stripHead] at h
      by_cases hca : c = a
      · rw [if_pos hca] at h
        subst hca
        simp [ih h]
      · rw [if_neg hca] at h
        exact absurd h (by simp)

theorem stripHead_self_append (p r : List Char) : stripHead p (p ++ r) = some r := by
  induction p with
  | nil => simp [stripHead]
  | cons a as ih => simp [stripHead, ih]

theorem stripTail_append (t r : List Char) : stripTail t (r ++ t) = some r := by
  simp [stripTail, List.reverse_append, stripHead_self_append]

theorem stripTail_eq_some {t s r : List Char} (h : stripTail t s = some r) :
    s = r ++ t := by
  simp only [stripTail, Option.map_eq_some'] at h
  obtain ⟨x, hx, hrev⟩ := h
  have := stripHead_eq_some hx
  have hs : s = (t.reverse ++ x).reverse := by
    rw [← this]; simp
  rw [hs, ← hrev]; simp

theorem matchTag_eq_some {s id rest : List Char}
    (h : matchTag s = some (id, rest)) :
    s = tagOpen ++ id ++ ']' :: rest ∧ id ≠ [] ∧ ']' ∉ id := by
  unfold matchTag at h
  split at h
  · exact absurd h (by simp)
  · rename_i r hr
    split at h
    · rename_i tail hd
      split at h
      · exact absurd h (by simp)
      · rename_i hne
        have hid : r.takeWhile (fun c => c != ']') = id := by
          injection h with h'
          exact congrArg Prod.fst h'
        have htl : tail = rest := by
          injection h with h'
          exact congrArg Prod.snd h'
        have hsplit : r.takeWhile (fun c => c != ']') ++
            r.dropWhile (fun c => c != ']') = r :=
          List.takeWhile_append_dropWhile (fun c => c != ']') r
        refine ⟨?_, ?_, ?_⟩
        · rw [stripHead_eq_some hr, ← hsplit, hid, hd, htl, List.append_assoc]
        · intro hnil; rw [hid] at hne; simp [hnil] at hne
        · intro hmem
          rw [← hid] at hmem
          have := List.mem_takeWhile_imp hmem
          simp at this
    · exact absurd h (by simp)

theorem matchTag_rest_length {s id rest : List Char}
    (h : matchTag s = some (id, rest)) : rest.length < s.length := by
  obtain ⟨hs, hid, -⟩ := matchTag_eq_some h
  rw [hs]
  simp [tagOpen]
  omega

theorem matchTag_nil : matchTag [] = none := rfl

theorem splitFlatF_fuel :
    ∀ {f₁ : Nat} {s : List Char} {f₂ : Nat}, s.length ≤ f₁ → s.length ≤ f₂ →
      splitFlatF f₁ s = splitFlatF f₂ s := by
  intro f₁
  induction f₁ with
  | zero =>
    intro s f₂ h₁ h₂
    have hs : s = [] := by cases s <;> simp_all
    subst hs
    cases f₂ with
    | zero => rfl
    | succ k => simp [splitFlatF, matchTag_nil]
  | succ m ih =>
    intro s f₂ h₁ h₂
    cases f₂ with
    | zero =>
      have hs : s = [] := by cases s <;> simp_all
      subst hs
      simp [splitFlatF, matchTag_nil]
    | succ k =>
      simp only [splitFlatF]
      cases hm : matchTag s with
      | some pr =>
        obtain ⟨id, rest⟩ := pr
        have hlt := matchTag_rest_length hm
        dsimp only
        rw [@ih rest k (by omega) (by omega)]
      | none =>
        cases s with
        | nil => rfl
        | cons c cs =>
          simp only [List.length_cons] at h₁ h₂
          dsimp only
          rw [@ih cs k (by omega) (by omega)]

theorem splitFlat_nil : splitFlat [] = [[]] := rfl

theorem splitFlat_tag {s id rest : List Char}
    (h : matchTag s = some (id, rest)) :
    splitFlat s = [] :: id :: splitFlat rest := by
  have hlt := matchTag_rest_length h
  unfold splitFlat
  obtain ⟨n, hn⟩ : ∃ n, s.length = n + 1 := ⟨s.length - 1, by omega⟩
  rw [hn]
  simp only [splitFlatF, h]
  rw [@splitFlatF_fuel n rest rest.length (by omega) le_rfl]

theorem splitFlat_cons {c : Char} {cs : List Char}
    (h : matchTag (c :: cs) = none) :
    splitFlat (c :: cs) =
      match splitFlat cs with
      | [] => [[c]]
      | t :: ts => (c :: t) :: ts := by
  unfold splitFlat
  simp only [List.length_cons, splitFlatF, h]

theorem splitFlat_ne_nil (s : List Char) : splitFlat s ≠ [] := by
  cases s with
  | nil => simp [splitFlat_nil]
  | cons c cs =>
    cases h : matchTag (c :: cs) with
    | some pr =>
      obtain ⟨id, rest⟩ := pr
      rw [splitFlat_tag h]
      simp
    | none =>
      rw [splitFlat_cons h]
      cases splitFlat cs <;> simp

theorem rejoin_cons_head (c : Char) (t : List Char) (ts : List (List Char)) :
    rejoin ((c :: t) :: ts) = c :: rejoin (t :: ts) := by
  cases ts with
  | nil => rfl
  | cons id rest => simp [rejoin]

/-- C1.  Sentinel tag round-trip: splitting any response string on the tag
pattern yields an alternating list of plain-text segments and captured ids
such that concatenating the text segments interleaved with the ids
re-wrapped as `[RECIPE_IMAGE:<id>]` reconstructs the input exactly. -/
theorem rejoin_splitFlat (s : List Char) : rejoin (splitFlat s) = s := by
  suffices H : ∀ n : Nat, ∀ s : List Char, s.length ≤ n → rejoin (splitFlat s) = s from
    H s.length s le_rfl
  intro n
  induction n with
  | zero =>
    intro s hs
    have : s = [] := by cases s <;> simp_all
    subst this
    simp [splitFlat_nil, rejoin]
  | succ m ih =>
    intro s hs
    cases s with
    | nil => simp [splitFlat_nil, rejoin]
    | cons c cs =>
      cases h : matchTag (c :: cs) with
      | some pr =>
        obtain ⟨id, rest⟩ := pr
        obtain ⟨hinv, -, -⟩ := matchTag_eq_some h
        have hlt := matchTag_rest_length h
        rw [splitFlat_tag h]
        simp only [rejoin]
        rw [ih rest (by omega), hinv]
        simp
      | none =>
        rw [splitFlat_cons h]
        simp only [List.length_cons] at hs
        have hcs := ih cs (by omega)
        cases hsp : splitFlat cs with
        | nil => exact absurd hsp (splitFlat_ne_nil cs)
        | cons t ts =>
          simp only []
          rw [rejoin_cons_head, ← hsp, hcs]

/-- C2.  `get_recipe_image` returns the fixed "No file_id provided." message
exactly when the input trims to the empty string, and otherwise returns the
literal `[RECIPE_IMAGE:` followed by the trimmed input and `]`; in
particular `get_recipe_image "abc123"` is exactly `[RECIPE_IMAGE:abc123]`.
The embedding is a pure function, performing no network access. -/
theorem get_recipe_image_spec (file_id : List Char) :
    (pyStrip file_id = [] → get_recipe_image file_id = msgNoFileId) ∧
    (pyStrip file_id ≠ [] →
      get_recipe_image file_id =
        "[RECIPE_IMAGE:".toList ++ pyStrip file_id ++ [']']) ∧
    get_recipe_image "abc123".toList = "[RECIPE_IMAGE:abc123]".toList := by
  refine ⟨?_, ?_, by decide⟩
  · intro h
    simp [get_recipe_image, h]
  · intro h
    rw [get_recipe_image, if_neg (by simpa using h)]
    rfl

/-- Witness for C2 at the concrete inputs named by the spec: `""`, `"   "`
and `"abc123"` (plus an input with surrounding whitespace). -/
theorem get_recipe_image_spec_witness :
    get_recipe_image "".toList = msgNoFileId ∧
    get_recipe_image "   ".toList = msgNoFileId ∧
    get_recipe_image " abc123 ".toList = "[RECIPE_IMAGE:abc123]".toList := by
  refine ⟨(get_recipe_image_spec "".toList).1 (by decide),
    (get_recipe_image_spec "   ".toList).1 (by decide),
    ((get_recipe_image_spec " abc123 ".toList).2.1 (by decide)).trans (by decide)⟩

/-- C3 counterexample.  At the non-blank input `"a]b"` the Image-Fetch Tool
produces `[RECIPE_IMAGE:a]b]`, whose id portion between the opening and the
closing `]` is `a]b`, which does contain a `]` character — refuting the
claimed invariant as stated for every non-blank input. -/
theorem sentinelId_bracket_cex :
    sentinelId (get_recipe_image ['a', ']', 'b']) = some ['a', ']', 'b'] ∧
    ']' ∈ ['a', ']', 'b'] := by
  refine ⟨by decide, by decide⟩

/-- C3 (amended).  For every input whose trimmed form is non-blank and
contains no `]`, the Sentinel Tag produced by the Image-Fetch Tool has a
well-formed id portion: non-empty, equal to the trimmed input, and free of
`]`. -/
theorem sentinelId_get_recipe_image (file_id : List Char)
    (hne : pyStrip file_id ≠ []) (hcl : ']' ∉ pyStrip file_id) :
    ∃ id, sentinelId (get_recipe_image file_id) = some id ∧
      id = pyStrip file_id ∧ id ≠ [] ∧ ']' ∉ id := by
  refine ⟨pyStrip file_id, ?_, rfl, hne, hcl⟩
  rw [get_recipe_image, if_neg (by simpa using hne)]
  unfold sentinelId
  rw [List.append_assoc, stripHead_self_append]
  exact stripTail_append [']'] (pyStrip file_id)

/-- Witness for the amended C3 at the concrete input `"abc"`. -/
theorem sentinelId_get_recipe_image_witness :
    ∃ id, sentinelId (get_recipe_image "abc".toList) = some id ∧
      id = pyStrip "abc".toList ∧ id ≠ [] ∧ ']' ∉ id :=
  sentinelId_get_recipe_image "abc".toList (by decide) (by decide)

/-- C4.  When the index is non-empty, `search_documents` returns exactly
`min 4 (total chunks)` passages, formatted as a numbered list (numbering
from 1) in which each passage is annotated with its source filename and
consecutive passages are separated by a blank line (joined on `"\n\n"`).
The ranking is an arbitrary similarity permutation of the chunk list. -/
theorem search_documents_count (chunks : List Doc) (rank : List Doc → List Doc)
    (hperm : (rank chunks).Perm chunks) (hne : chunks ≠ []) :
    search_documents (some chunks) rank =
      joinSep "\n\n".toList
        (((rank chunks).take 4).enum.map (fun p => fmtPassage (p.1 + 1) p.2)) ∧
    ((rank chunks).take 4).length = min 4 chunks.length ∧
    (rank chunks).take 4 ≠ [] := by
  have hlen : (rank chunks).length = chunks.length := hperm.length_eq
  have hpos : 0 < chunks.length := List.length_pos.mpr hne
  have htake : ((rank chunks).take 4).length = min 4 chunks.length := by
    rw [List.length_take, hlen]
  have hne' : (rank chunks).take 4 ≠ [] := by
    intro hnil
    rw [hnil] at htake
    simp at htake
    omega
  refine ⟨?_, htake, hne'⟩
  unfold search_documents
  dsimp only
  rw [if_neg (by simpa [List.isEmpty_iff] using hne')]

/-- Witness for C4 at a concrete one-chunk index with the identity
ranking. -/
theorem search_documents_count_witness :
    search_documents (some [docSample]) (fun l => l) =
      joinSep "\n\n".toList
        ((([docSample].take 4)).enum.map (fun p => fmtPassage (p.1 + 1) p.2)) ∧
    ([docSample].take 4).length = min 4 [docSample].length ∧
    [docSample].take 4 ≠ [] :=
  search_documents_count [docSample] (fun l => l) (List.Perm.refl _) (by simp)

/-- C5.  If the Document Loader yields zero documents, index construction
is skipped (`build_index` returns `None`) and `search_documents` then
returns the fixed knowledge-base-unavailable message for every query
(every ranking), never an error: the embedding is a total function. -/
theorem build_index_empty (chunk : List Doc → List Doc)
    (rank : List Doc → List Doc) :
    build_index [] chunk = none ∧
    search_documents (build_index [] chunk) rank = msgNoKB := by
  constructor <;> simp [build_index, search_documents]

/-- C10.  Every passage whose chunk metadata lacks a `source` key is
annotated with the literal source name `unknown`: the `j`-th formatted part
of the returned numbered list reads `[j+1] (source: unknown)` followed by
the stripped chunk text. -/
theorem search_documents_unknown_source (chunks : List Doc)
    (rank : List Doc → List Doc) (j : Nat) (d : Doc)
    (hget : ((rank chunks).take 4)[j]? = some d)
    (hsrc : metaGet srcKey d.metadata = none) :
    ∃ parts, search_documents (some chunks) rank = joinSep "\n\n".toList parts ∧
      parts[j]? = some ('[' :: (Nat.toDigits 10 (j + 1) ++
        ("] (source: unknown)\n".toList ++ pyStrip d.page_content))) := by
  have hne' : (rank chunks).take 4 ≠ [] := by
    intro hnil
    rw [hnil] at hget
    simp at hget
  refine ⟨((rank chunks).take 4).enum.map (fun p => fmtPassage (p.1 + 1) p.2),
    ?_, ?_⟩
  · unfold search_documents
    dsimp only
    rw [if_neg (by simpa [List.isEmpty_iff] using hne')]
  · rw [List.getElem?_map, List.getElem?_enum, hget]
    simp only [Option.map_some']
    rw [fmtPassage, hsrc]
    rfl

/-- Witness for C10 at a concrete two-chunk result whose second chunk lacks
a `source` key. -/
theorem search_documents_unknown_source_witness :
    ∃ parts,
      search_documents (some [docSample, docNoSource]) (fun l => l) =
        joinSep "\n\n".toList parts ∧
      parts[1]? = some ('[' :: (Nat.toDigits 10 2 ++
        ("] (source: unknown)\n".toList ++ pyStrip docNoSource.page_content))) :=
  search_documents_unknown_source [docSample, docNoSource] (fun l => l) 1
    docNoSource (by decide) (by decide)

theorem sepAnd_rest_length {s rest : List Char}
    (h : stripHead sepAnd s = some rest) : rest.length < s.length := by
  rw [stripHead_eq_some h]
  simp [sepAnd]
  omega

theorem splitAndF_fuel :
    ∀ {f₁ : Nat} {s : List Char} {f₂ : Nat}, s.length ≤ f₁ → s.length ≤ f₂ →
      splitAndF f₁ s = splitAndF f₂ s := by
  intro f₁
  induction f₁ with
  | zero =>
    intro s f₂ h₁ h₂
    have hs : s = [] := by cases s <;> simp_all
    subst hs
    cases f₂ with
    | zero => rfl
    | succ k => rfl
  | succ m ih =>
    intro s f₂ h₁ h₂
    cases f₂ with
    | zero =>
      have hs : s = [] := by cases s <;> simp_all
      subst hs
      rfl
    | succ k =>
      simp only [splitAndF]
      cases hm : stripHead sepAnd s with
      | some rest =>
        have hlt := sepAnd_rest_length hm
        dsimp only
        rw [@ih rest k (by omega) (by omega)]
      | none =>
        cases s with
        | nil => rfl
        | cons c cs =>
          simp only [List.length_cons] at h₁ h₂
          dsimp only
          rw [@ih cs k (by omega) (by omega)]

theorem splitAnd_sep {s rest : List Char} (h : stripHead sepAnd s = some rest) :
    splitAnd s = [] :: splitAnd rest := by
  have hlt := sepAnd_rest_length h
  unfold splitAnd
  obtain ⟨n, hn⟩ : ∃ n, s.length = n + 1 := ⟨s.length - 1, by omega⟩
  rw [hn]
  simp only [splitAndF, h]
  rw [@splitAndF_fuel n rest rest.length (by omega) le_rfl]

theorem splitAnd_cons {c : Char} {cs : List Char}
    (h : stripHead sepAnd (c :: cs) = none) :
    splitAnd (c :: cs) =
      match splitAnd cs with
      | [] => [[c]]
      | t :: ts => (c :: t) :: ts := by
  unfold splitAnd
  simp only [List.length_cons, splitAndF, h]

theorem stripHead_sepAnd_of_ne {c : Char} (cs : List Char) (hc : c ≠ ' ') :
    stripHead sepAnd (c :: cs) = none := by
  have : sepAnd = ' ' :: "and ".toList := rfl
  rw [this, stripHead, if_neg hc]

theorem splitAnd_append_clean :
    ∀ (pre : List Char), (∀ c ∈ pre, c ≠ ' ') →
      ∀ {s : List Char} {t : List Char} {ts : List (List Char)},
        splitAnd s = t :: ts → splitAnd (pre ++ s) = (pre ++ t) :: ts := by
  intro pre
  induction pre with
  | nil => intro _ s t ts h; simpa using h
  | cons c pre' ih =>
    intro hclean s t ts h
    have hc : c ≠ ' ' := hclean c (by simp)
    have hpre' : ∀ x ∈ pre', x ≠ ' ' := fun x hx => hclean x (by simp [hx])
    rw [List.cons_append, splitAnd_cons (stripHead_sepAnd_of_ne _ hc),
      ih hpre' h]
    rfl

theorem evalClause_parents (fid : List Char) (f : DriveFile) :
    evalClause (('\'' :: fid) ++ "' in parents".toList) f =
      f.parents.contains fid := by
  unfold evalClause
  have e1 : stripHead ['\''] (('\'' :: fid) ++ "' in parents".toList) =
      some (fid ++ "' in parents".toList) := rfl
  rw [e1]
  dsimp only
  rw [stripTail_append]

theorem evalClause_trashed (f : DriveFile) :
    evalClause ("trashed = false".toList) f = !f.trashed := rfl

theorem evalClause_mime (f : DriveFile) :
    evalClause ("mimeType contains 'image/'".toList) f =
      hasHead "image/".toList f.mimeType := rfl

/-- C6.  For a folder id free of spaces and quote characters (Drive folder
ids are opaque alphanumeric tokens), the listing query issued by
`list_image_files` selects exactly the non-trashed files whose MIME type
begins with `image/` and whose parent is the given folder id, with the
result capped at the first page of 200 entries. -/
theorem list_image_files_query (drive : List DriveFile) (fid : List Char)
    (hsp : ∀ c ∈ fid, c ≠ ' ') (_hqt : ∀ c ∈ fid, c ≠ '\'') :
    list_image_files drive fid =
      (drive.filter (fun f => f.parents.contains fid &&
        (!f.trashed && hasHead "image/".toList f.mimeType))).take 200 := by
  unfold list_image_files driveList
  congr 1
  apply List.filter_congr
  intro f _
  unfold evalQuery driveQuery
  have hpre : ∀ c ∈ ('\'' :: fid), c ≠ ' ' := by
    intro c hc
    rcases List.mem_cons.mp hc with h | h
    · subst h; decide
    · exact hsp c h
  have htail :
      splitAnd "' in parents and trashed = false and mimeType contains 'image/'".toList =
        ["' in parents".toList, "trashed = false".toList,
          "mimeType contains 'image/'".toList] := by decide
  rw [splitAnd_append_clean ('\'' :: fid) hpre htail]
  simp only [List.all_cons, List.all_nil]
  rw [evalClause_parents, evalClause_trashed, evalClause_mime]
  simp [Bool.and_true]

/-- Witness for C6 at the concrete folder contents. -/
theorem list_image_files_query_witness :
    list_image_files driveSample "fold1".toList =
      (driveSample.filter (fun f => f.parents.contains "fold1".toList &&
        (!f.trashed && hasHead "image/".toList f.mimeType))).take 200 :=
  list_image_files_query driveSample "fold1".toList (by decide) (by decide)

theorem isSubstr_nil (s : List Char) : isSubstr [] s = true := by
  cases s <;> rfl

theorem keptFiles_eq_filter (search : List Char) (files : List DriveFile) :
    keptFiles search files = files.filter (nameMatches search) := by
  unfold keptFiles
  split
  · rename_i h
    rw [List.isEmpty_iff] at h
    subst h
    exact (List.filter_eq_self.mpr
      (fun f _ => by simp [nameMatches, pyLower, isSubstr_nil])).symm
  · rfl

/-- C7.  `list_drive_recipes` returns, without raising: the fixed
configuration-error message when the folder id is not configured; a
formatted error string when the Drive listing raises; the fixed
"No recipe images found" message when the folder lists zero images; the
fixed no-match message referencing the search term when a non-empty search
term matches no filename case-insensitively; and otherwise a bulleted list
of `name (id: id)` lines restricted to the files whose lowercased name
contains the lowercased search term. -/
theorem list_drive_recipes_cases (folder_id : List Char)
    (res : Except (List Char) (List DriveFile)) (search : List Char) :
    (folder_id = [] →
      list_drive_recipes folder_id res search = msgDriveNotConfigured) ∧
    (folder_id ≠ [] → ∀ e, res = .error e →
      list_drive_recipes folder_id res search =
        "Error accessing Google Drive: ".toList ++ e) ∧
    (folder_id ≠ [] → res = .ok [] →
      list_drive_recipes folder_id res search = msgNoRecipeImages) ∧
    (folder_id ≠ [] → ∀ files, res = .ok files → files ≠ [] → search ≠ [] →
      files.filter (nameMatches search) = [] →
      list_drive_recipes folder_id res search =
        "No recipe images matched '".toList ++ search ++ "'.".toList) ∧
    (folder_id ≠ [] → ∀ files, res = .ok files → files ≠ [] →
      files.filter (nameMatches search) ≠ [] →
      list_drive_recipes folder_id res search =
        "Available recipe images:\n".toList ++
          joinSep ['\n'] ((files.filter (nameMatches search)).map recipeLine)) := by
  refine ⟨?_, ?_, ?_, ?_, ?_⟩
  · intro h
    subst h
    rfl
  · intro h e he
    subst he
    unfold list_drive_recipes
    rw [if_neg (by simpa [List.isEmpty_iff] using h)]
  · intro h he
    subst he
    unfold list_drive_recipes
    rw [if_neg (by simpa [List.isEmpty_iff] using h)]
    rfl
  · intro h files hres hfne hsne hfil
    subst hres
    unfold list_drive_recipes
    rw [if_neg (by simpa [List.isEmpty_iff] using h)]
    dsimp only
    rw [if_neg (by simpa [List.isEmpty_iff] using hfne),
      if_pos ⟨by simpa [List.isEmpty_iff] using hsne,
        by rw [keptFiles_eq_filter, hfil]; rfl⟩]
  · intro h files hres hfne hkne
    subst hres
    unfold list_drive_recipes
    rw [if_neg (by simpa [List.isEmpty_iff] using h)]
    dsimp only
    rw [if_neg (by simpa [List.isEmpty_iff] using hfne),
      if_neg (by
        rintro ⟨-, hk⟩
        rw [keptFiles_eq_filter] at hk
        exact hkne (List.isEmpty_iff.mp hk)),
      keptFiles_eq_filter]

/-- Witness for C7: every branch exercised at concrete inputs (including a
case-insensitive search hit for `"PASTA"`). -/
theorem list_drive_recipes_cases_witness :
    list_drive_recipes [] (.ok driveSample) [] = msgDriveNotConfigured ∧
    list_drive_recipes "f".toList (.error "boom".toList) [] =
      "Error accessing Google Drive: ".toList ++ "boom".toList ∧
    list_drive_recipes "f".toList (.ok []) [] = msgNoRecipeImages ∧
    list_drive_recipes "f".toList (.ok driveSample) "zzz".toList =
      "No recipe images matched '".toList ++ "zzz".toList ++ "'.".toList ∧
    list_drive_recipes "f".toList (.ok driveSample) "PASTA".toList =
      "Available recipe images:\n".toList ++
        joinSep ['\n'] ((driveSample.filter (nameMatches "PASTA".toList)).map
          recipeLine) :=
  ⟨(list_drive_recipes_cases [] (.ok driveSample) []).1 rfl,
   (list_drive_recipes_cases "f".toList (.error "boom".toList) []).2.1
     (by decide) "boom".toList rfl,
   (list_drive_recipes_cases "f".toList (.ok []) []).2.2.1 (by decide) rfl,
   (list_drive_recipes_cases "f".toList (.ok driveSample) "zzz".toList).2.2.2.1
     (by decide) driveSample rfl (by decide) (by decide) (by decide),
   (list_drive_recipes_cases "f".toList (.ok driveSample) "PASTA".toList).2.2.2.2
     (by decide) driveSample rfl (by decide) (by decide)⟩

/-- C9.  Partial rendering: for every segment of the split response, a
captured id whose fetch raises contributes a warning naming that id and the
error, while every other fetchable image segment and every other non-blank
text segment of the same response still contributes its own rendered item —
a fetch failure never aborts the whole response. -/
theorem render_response_each_segment (fetch : List Char → Except (List Char) (List Nat))
    (response : List Char) (i : Nat) (part : List Char)
    (hget : (splitFlat response)[i]? = some part) :
    (i % 2 = 1 → ∀ e, fetch (pyStrip part) = .error e →
      RenderItem.warn (warnText (pyStrip part) e) ∈ render_response fetch response) ∧
    (i % 2 = 1 → ∀ b, fetch (pyStrip part) = .ok b →
      RenderItem.image b ∈ render_response fetch response) ∧
    (i % 2 = 0 → pyStrip part ≠ [] →
      RenderItem.md (pyStrip part) ∈ render_response fetch response) := by
  have hmem : (i, part) ∈ (splitFlat response).enum := by
    have h2 : (splitFlat response).enum[i]? = some (i, part) := by
      rw [List.getElem?_enum, hget]
      rfl
    obtain ⟨hi, he⟩ := List.getElem?_eq_some_iff.mp h2
    exact he ▸ List.getElem_mem hi
  have key : ∀ x ∈ renderPart fetch (i, part), x ∈ render_response fetch response := by
    intro x hx
    unfold render_response
    exact List.mem_flatten.mpr ⟨renderPart fetch (i, part),
      List.mem_map_of_mem _ hmem, hx⟩
  refine ⟨?_, ?_, ?_⟩
  · intro hodd e he
    apply key
    unfold renderPart
    dsimp only
    rw [if_neg (by omega), he]
    simp
  · intro hodd b hb
    apply key
    unfold renderPart
    dsimp only
    rw [if_neg (by omega), hb]
    simp
  · intro heven hne
    apply key
    unfold renderPart
    dsimp only
    rw [if_pos heven, if_neg (by simpa [List.isEmpty_iff] using hne)]
    simp

/-- Witness for C9: in one concrete response the failing id yields its
warning while the other image and the text segments are still rendered. -/
theorem render_response_each_segment_witness :
    RenderItem.warn (warnText "bad".toList "boom".toList) ∈
      render_response fetchSample respSample ∧
    RenderItem.image [1, 2] ∈ render_response fetchSample respSample ∧
    RenderItem.md "Hello".toList ∈ render_response fetchSample respSample :=
  ⟨(render_response_each_segment fetchSample respSample 1 "bad".toList
      (by decide)).1 rfl "boom".toList (by decide),
   (render_response_each_segment fetchSample respSample 3 "ok1".toList
      (by decide)).2.1 rfl [1, 2] (by decide),
   (render_response_each_segment fetchSample respSample 0 "Hello ".toList
      (by decide)).2.2 rfl (by decide)⟩

theorem sha1_shape (msg : List Nat) :
    ∃ a b c d e, sha1 msg =
      wordBytes a ++ wordBytes b ++ wordBytes c ++ wordBytes d ++ wordBytes e := by
  unfold sha1
  rcases hfold : (toBlocks (sha1Pad msg)).foldl sha1Block
      (0x67452301, 0xEFCDAB89, 0x98BADCFE, 0x10325476, 0xC3D2E1F0) with
    ⟨a, b, c, d, e⟩
  exact ⟨a, b, c, d, e, rfl⟩

theorem uuidStr_props (b0 b1 b2 b3 b4 b5 b6 b7 b8 b9 b10 b11 b12 b13 b14 b15 : Nat) :
    (uuidStr b0 b1 b2 b3 b4 b5 b6 b7 b8 b9 b10 b11 b12 b13 b14 b15).length = 36 ∧
    (uuidStr b0 b1 b2 b3 b4 b5 b6 b7 b8 b9 b10 b11 b12 b13 b14 b15)[14]? =
      some (hexDigit (b6 / 16 % 16)) ∧
    (uuidStr b0 b1 b2 b3 b4 b5 b6 b7 b8 b9 b10 b11 b12 b13 b14 b15)[19]? =
      some (hexDigit (b8 / 16 % 16)) := by
  refine ⟨?_, ?_, ?_⟩ <;> simp [uuidStr, hexByte]

theorem uuid5_props (ns nm : List Nat) :
    (uuid5 ns nm).length = 36 ∧
    (uuid5 ns nm)[14]? = some '5' ∧
    ((uuid5 ns nm)[19]? = some '8' ∨ (uuid5 ns nm)[19]? = some '9' ∨
      (uuid5 ns nm)[19]? = some 'a' ∨ (uuid5 ns nm)[19]? = some 'b') := by
  unfold uuid5
  obtain ⟨a, b, c, d, e, hs⟩ := sha1_shape (ns ++ nm)
  rw [hs]
  simp only [wordBytes, List.cons_append, List.nil_append]
  refine ⟨(uuidStr_props _ _ _ _ _ _ _ _ _ _ _ _ _ _ _ _).1, ?_, ?_⟩
  · rw [(uuidStr_props _ _ _ _ _ _ _ _ _ _ _ _ _ _ _ _).2.1]
    have h5 : ((b >>> 8) % 256 % 16 + 0x50) / 16 % 16 = 5 := by omega
    rw [h5]
    decide
  · rw [(uuidStr_props _ _ _ _ _ _ _ _ _ _ _ _ _ _ _ _).2.2]
    have h4 : ((c >>> 24) % 256 % 64 + 0x80) / 16 % 16 = 8 ∨
        ((c >>> 24) % 256 % 64 + 0x80) / 16 % 16 = 9 ∨
        ((c >>> 24) % 256 % 64 + 0x80) / 16 % 16 = 10 ∨
        ((c >>> 24) % 256 % 64 + 0x80) / 16 % 16 = 11 := by omega
    rcases h4 with h | h | h | h <;> rw [h] <;> decide

set_option maxRecDepth 100000 in
/-- C8.  Thread-identifier derivation is deterministic: the embedding of
`make_thread_id` is a pure function, so any two invocations on the same
seed return the same identifier; the identifier has the shape of a
namespace-based (version 5, RFC 4122 variant) UUID string; and on the seed
`python.org` the embedding reproduces the value of Python's
`uuid.uuid5(uuid.NAMESPACE_DNS, "python.org")` exactly. -/
theorem make_thread_id_deterministic (seed : List Char) :
    make_thread_id seed = make_thread_id seed ∧
    (make_thread_id seed).length = 36 ∧
    (make_thread_id seed)[14]? = some '5' ∧
    ((make_thread_id seed)[19]? = some '8' ∨
      (make_thread_id seed)[19]? = some '9' ∨
      (make_thread_id seed)[19]? = some 'a' ∨
      (make_thread_id seed)[19]? = some 'b') ∧
    make_thread_id "python.org".toList =
      "886313e1-3b8a-5372-9b90-0c9aee199e5d".toList :=
  ⟨rfl, (uuid5_props NS_DNS _).1, (uuid5_props NS_DNS _).2.1,
    (uuid5_props NS_DNS _).2.2, by decide⟩
